import Mathlib

/-!
Verification of the processing-job orchestration engine of the dojo-flask
backend: the job state machine (`src/models/processing_job.py`), the stage
progress aggregator and chapter persistence (`src/ai/chapter_processor.py`),
the generation retry/fallback engine and the chapter validator/merger
(`src/ai/llm_processor.py`), and the dispatcher
(`src/ai/processing_pipeline.py`).

Numeric fields that are Python floats are modelled as rationals; all the
properties checked here involve only exact decimal constants and comparisons
that behave identically in both representations.  Wall-clock times are
modelled as abstract natural-number instants.  Python exceptions are modelled
with `Except` (or an explicit raised-flag where a mutation survives the
exception).
-/

/-- The `ProcessingStage` enum of `src/models/processing_job.py` (lines 8-17).
Its eight members are UPLOADING, EXTRACTING_AUDIO, GENERATING_TRANSCRIPT,
ANALYZING_CONTENT, GENERATING_CHAPTERS, FINALIZING, COMPLETE, ERROR. -/
inductive ProcessingStage where
  | UPLOADING
  | EXTRACTING_AUDIO
  | GENERATING_TRANSCRIPT
  | ANALYZING_CONTENT
  | GENERATING_CHAPTERS
  | FINALIZING
  | COMPLETE
  | ERROR
deriving DecidableEq, Repr

/-- The `.value` string of each enum member, as written in the source. -/
def stageValue : ProcessingStage → String
  | .UPLOADING => "uploading"
  | ProcessingStage.EXTRACTING_AUDIO => "extracting_audio"
  | .GENERATING_TRANSCRIPT => "generating_transcript"
  | .ANALYZING_CONTENT => "analyzing_content"
  | .GENERATING_CHAPTERS => "generating_chapters"
  | .FINALIZING => "finalizing"
  | .COMPLETE => "complete"
  | .ERROR => "error"

/-- Python attribute table of the `ProcessingStage` enum class: member name to
member, in source order.  Attribute access `ProcessingStage.X` succeeds exactly
when `X` is one of these names. -/
def processingStageMembers : List (String × ProcessingStage) :=
  [("UPLOADING", .UPLOADING),
   ("EXTRACTING_AUDIO", ProcessingStage.EXTRACTING_AUDIO),
   ("GENERATING_TRANSCRIPT", .GENERATING_TRANSCRIPT),
   ("ANALYZING_CONTENT", .ANALYZING_CONTENT),
   ("GENERATING_CHAPTERS", .GENERATING_CHAPTERS),
   ("FINALIZING", .FINALIZING),
   ("COMPLETE", .COMPLETE),
   ("ERROR", .ERROR)]

/-- Attribute lookup `ProcessingStage.<n>`: `none` models an `AttributeError`. -/
def stageAttr (n : String) : Option ProcessingStage :=
  processingStageMembers.lookup n

/-- One entry of the `processing_errors` history kept in the job metadata
(`ProcessingJob.mark_error`, lines 154-159). -/
structure ErrEntry where
  timestamp : Nat
  stage : String
  message : String
  details : Option String
deriving DecidableEq, Repr

/-- JSON-ish values stored in the job `metadata` dictionary. -/
inductive PyVal where
  | s (v : String)
  | q (v : ℚ)
  | errs (v : List ErrEntry)
  | null
deriving DecidableEq, Repr

/-- Overwrite-or-append for a string-keyed dictionary modelled as an
association list (Python `dict.__setitem__`). -/
def alSet {α : Type} (l : List (String × α)) (k : String) (v : α) :
    List (String × α) :=
  if (l.lookup k).isSome then
    l.map (fun p => if p.1 = k then (k, v) else p)
  else
    l ++ [(k, v)]

/-- Python `dict.update`: shallow merge, later keys overwrite. -/
def alUpdate {α : Type} (base upd : List (String × α)) : List (String × α) :=
  upd.foldl (fun acc p => alSet acc p.1 p.2) base

/-- The mutable state of one `ProcessingJob` row (`src/models/processing_job.py`). -/
structure Job where
  id : String
  video_id : String
  status : ProcessingStage
  progress : ℚ
  start_time : Option Nat
  end_time : Option Nat
  error_message : Option String
  error_details : Option String
  stage_progress : List (String × ℚ)
  metadata : List (String × PyVal)
  task_id : Option Nat
deriving DecidableEq, Repr

/-- The stage-progress dictionary built in `ProcessingJob.__init__` (lines
57-61) and rebuilt in `ProcessingPipeline.restart_job` (lines 209-212): every
stage other than COMPLETE and ERROR mapped to 0.0. -/
def initStageProgress : List (String × ℚ) :=
  ((processingStageMembers.map Prod.snd).filter
      (fun s => ¬(s = ProcessingStage.COMPLETE ∨ s = ProcessingStage.ERROR))).map
    (fun s => (stageValue s, (0 : ℚ)))

/-- `ProcessingJob.is_complete` (lines 74-77). -/
def Job.is_complete (j : Job) : Bool :=
  j.status = ProcessingStage.COMPLETE ∨ j.status = ProcessingStage.ERROR

/-- `ProcessingJob.update_progress` (lines 113-136).  `stage=None` leaves the
status alone (an enum member is always truthy, so `if stage:` fires exactly
when a stage is passed); a supplied progress is clamped to [0,100]; non-empty
`stage_progress` / `metadata` arguments are shallow-merged; finally, if the
stored progress is ≥ 100 and the status is not ERROR the status becomes
COMPLETE and the end time is stamped if unset. -/
def update_progress (now : Nat) (j : Job) (stage : Option ProcessingStage)
    (progress : Option ℚ) (stage_progress : List (String × ℚ))
    (metadata : List (String × PyVal)) : Job :=
  let j1 : Job := match stage with
    | some s => { j with status := s }
    | none => j
  let j2 : Job := match progress with
    | some p => { j1 with progress := min 100 (max 0 p) }
    | none => j1
  let j3 : Job := if stage_progress.isEmpty then j2
    else { j2 with stage_progress := alUpdate j2.stage_progress stage_progress }
  let j4 : Job := if metadata.isEmpty then j3
    else { j3 with metadata := alUpdate j3.metadata metadata }
  if 100 ≤ j4.progress ∧ j4.status ≠ ProcessingStage.ERROR then
    { j4 with status := ProcessingStage.COMPLETE,
              end_time := if j4.end_time = none then some now else j4.end_time }
  else j4

/-- `ProcessingJob.mark_error` (lines 138-159), translated statement by
statement.  The local name `datetime` is bound by the import on line 145 only
when the end time is unset; the history entry built on lines 154-159 evaluates
`datetime.utcnow()` again, so when the end time was already set that build
raises `UnboundLocalError` *after* the status, message, details and the
`processing_errors` key have already been mutated.  The result is the mutated
job paired with `true` when that exception is raised. -/
def mark_error (now : Nat) (j : Job) (msg : String) (details : Option String) :
    Job × Bool :=
  let j1 := { j with status := ProcessingStage.ERROR,
                     error_message := some msg,
                     error_details := details }
  let datetimeBound := j1.end_time.isNone
  let j2 := if j1.end_time.isNone then { j1 with end_time := some now } else j1
  let md0 := j2.metadata
  let md := if (md0.lookup "processing_errors").isSome then md0
            else alSet md0 "processing_errors" (PyVal.errs [])
  let j3 := { j2 with metadata := md }
  if datetimeBound then
    let entry : ErrEntry :=
      { timestamp := now, stage := stageValue j3.status,
        message := msg, details := details }
    let md1 := match j3.metadata.lookup "processing_errors" with
      | some (PyVal.errs es) =>
          alSet j3.metadata "processing_errors" (PyVal.errs (es ++ [entry]))
      | _ => j3.metadata
    ({ j3 with metadata := md1 }, false)
  else
    (j3, true)

/-- Stage progress aggregator for the transcription stage
(`_transcribe_video.transcription_progress`, chapter_processor.py lines
170-179): local progress mapped onto the global 0-50 range. -/
def transcription_progress (p : ℚ) : ℚ :=
  (p / 100) * 50

/-- Stage progress aggregator for the chapter-generation stage
(`_generate_chapters.chapter_progress`, chapter_processor.py lines 227-236):
local progress mapped onto the global 50-85 range. -/
def chapter_progress (p : ℚ) : ℚ :=
  50 + (p / 100) * 35

/-- A candidate chapter as produced by the parsing stages of
`LLMProcessor`: start time (seconds), title, confidence. -/
structure Cand where
  start_time : ℚ
  title : String
  confidence : ℚ
deriving DecidableEq, Repr

/-- `LLMProcessor._create_fallback_chapters` (llm_processor.py lines 355-369):
`num_chapters` chapters, the i-th (0-based) starting at
`i * min_chapter_length`, titled "Chapter i+1", confidence 0.5. -/
def create_fallback_chapters (num_chapters : Nat)
    (min_chapter_length : ℚ) : List Cand :=
  (List.range num_chapters).map fun (i : Nat) =>
    { start_time := (i : ℚ) * min_chapter_length,
      title := "Chapter " ++ toString (i + 1),
      confidence := 0.5 }

/-- Comparison key of Python `sorted(chapters, key=lambda x: x['start_time'])`. -/
def candLe (a b : Cand) : Prop :=
  a.start_time ≤ b.start_time

instance : DecidableRel candLe :=
  fun a b => inferInstanceAs (Decidable (a.start_time ≤ b.start_time))

instance : IsTotal Cand candLe :=
  ⟨fun a b => le_total a.start_time b.start_time⟩

instance : IsTrans Cand candLe :=
  ⟨fun _ _ _ hab hbc => le_trans hab hbc⟩

/-- Comparison of Python
`sorted(..., key=lambda x: x.get('confidence', 0), reverse=True)` (every
candidate record carries a confidence, so the `.get` default never fires). -/
def confGe (a b : Cand) : Prop :=
  b.confidence ≤ a.confidence

instance : DecidableRel confGe :=
  fun a b => inferInstanceAs (Decidable (b.confidence ≤ a.confidence))

/-- Python `sorted(chapters, key=lambda x: x['start_time'])`: a stable sort by
start time.  `List.insertionSort` with the ≤-by-key relation is stable, so it
computes the same list as Python's stable sort. -/
def sortByStart (l : List Cand) : List Cand :=
  l.insertionSort candLe

/-- Python `sorted(..., key=lambda x: x.get('confidence', 0), reverse=True)`:
a stable descending sort by confidence. -/
def sortByConfDesc (l : List Cand) : List Cand :=
  l.insertionSort confGe

/-- Loop body of the merge pass of `_validate_and_process_chapters`
(llm_processor.py lines 334-345).  The kept list `filtered_chapters` is split
into its last element `last` and the reversed prefix `accRev`.  For each
remaining candidate `c`: if `c.start_time - last.start_time ≥ minLen` keep
`c`; otherwise replace `last` by `c` exactly when `c`'s confidence is strictly
greater; otherwise drop `c`. -/
def mergeGo (minLen : ℚ) (last : Cand) (accRev : List Cand) :
    List Cand → List Cand
  | [] => (last :: accRev).reverse
  | c :: cs =>
    if minLen ≤ c.start_time - last.start_time then
      mergeGo minLen c (last :: accRev) cs
    else if last.confidence < c.confidence then
      mergeGo minLen c accRev cs
    else
      mergeGo minLen last accRev cs

/-- The merge pass: the first candidate is kept unconditionally (`i == 0`
branch of the loop), the rest are folded by `mergeGo`. -/
def mergeClose (minLen : ℚ) : List Cand → List Cand
  | [] => []
  | c :: cs => mergeGo minLen c [] cs

/-- `LLMProcessor._validate_and_process_chapters` (llm_processor.py lines
308-353): empty input is replaced by 5 fallback chapters; otherwise sort by
start time, prepend a synthetic Introduction when the first start time is
positive, drop candidates starting at or beyond the video duration, run the
merge pass, and when more than 15 chapters remain keep the 15 of highest
confidence re-sorted by start time. -/
def validate_and_process_chapters (chapters : List Cand)
    (video_duration : ℚ) (min_chapter_length : ℚ) : List Cand :=
  if chapters.isEmpty then create_fallback_chapters 5 min_chapter_length
  else
    let sorted : List Cand := sortByStart chapters
    let sorted2 : List Cand := match sorted with
      | [] => sorted
      | c :: _ =>
        if 0 < c.start_time then
          { start_time := 0, title := "Introduction",
            confidence := 0.8 } :: sorted
        else sorted
    let inRange : List Cand :=
      sorted2.filter (fun c => c.start_time < video_duration)
    let filtered : List Cand := mergeClose min_chapter_length inRange
    if 15 < filtered.length then
      sortByStart ((sortByConfDesc filtered).take 15)
    else filtered

/-- A persisted chapter row (`src/models/chapter.py`) with the fields written
by `ChapterProcessor._save_chapters`. -/
structure ChapterRow where
  title : String
  start_time : ℚ
  end_time : Option ℚ
  confidence : ℚ
  is_ai_generated : Bool
  order : Nat
deriving DecidableEq, Repr

/-- Construction loop of `ChapterProcessor._save_chapters`
(chapter_processor.py lines 279-296): the i-th chapter gets order `i + 1` and
end time equal to the next candidate's start time, `none` for the last. -/
def buildChapterRows (cs : List Cand) : List ChapterRow :=
  cs.enum.map fun p =>
    { title := p.2.title, start_time := p.2.start_time,
      end_time := (cs[p.1 + 1]?).map Cand.start_time,
      confidence := p.2.confidence, is_ai_generated := true,
      order := p.1 + 1 }

/-- Comparison key of the `order_by(Chapter.start_time)` query in
`Chapter.update_order`. -/
def rowLe (a b : ChapterRow) : Prop :=
  a.start_time ≤ b.start_time

instance : DecidableRel rowLe :=
  fun a b => inferInstanceAs (Decidable (a.start_time ≤ b.start_time))

instance : IsTotal ChapterRow rowLe :=
  ⟨fun a b => le_total a.start_time b.start_time⟩

instance : IsTrans ChapterRow rowLe :=
  ⟨fun _ _ _ hab hbc => le_trans hab hbc⟩

/-- `Chapter.update_order` (chapter.py lines 118-123): re-sort the video's
chapters by start time (a stable order) and assign dense 1-based orders.
`_save_chapters` calls it once per saved chapter; every call recomputes all
the orders from scratch, so the net effect equals one call on the full list
(the saved chapters are the video's only chapters in this flow). -/
def update_order (rows : List ChapterRow) : List ChapterRow :=
  ((rows.insertionSort rowLe).enum).map
    fun p => { p.2 with order := p.1 + 1 }

/-- `ChapterProcessor._save_chapters` (chapter_processor.py lines 268-315):
assign end times and orders, then `update_order` over the saved rows. -/
def save_chapters (cs : List Cand) : List ChapterRow :=
  update_order (buildChapterRows cs)

/-- Default `max_retries` of `_generate_with_retry` (llm_processor.py line 150). -/
def defaultMaxRetries : Nat := 3

/-- Default `max_chapters` of `generate_chapters` (llm_processor.py line 74). -/
def defaultMaxChapters : Nat := 15

/-- Default `min_chapter_length` of `generate_chapters` (llm_processor.py
line 75). -/
def defaultMinChapterLength : ℚ := 30

/-- Loop of `LLMProcessor._generate_with_retry` (llm_processor.py lines
154-209) over the remaining attempt indices.  `att i` abstracts attempt `i`:
either an adapter exception or the candidate list parsed from the raw
response.  A non-empty parse returns immediately; an empty parse falls
through to the next attempt; an exception re-raises on the last attempt
(`attempt == max_retries - 1`) and is swallowed otherwise.  When the loop
ends without returning, fallback chapters are synthesized with
`max_chapters` entries (line 213). -/
def generate_with_retry_go (att : Nat → Except String (List Cand))
    (max_retries max_chapters : Nat) (min_chapter_length : ℚ) :
    List Nat → Except String (List Cand)
  | [] => .ok (create_fallback_chapters max_chapters min_chapter_length)
  | a :: rest =>
    match att a with
    | .ok cs =>
      if cs.isEmpty then
        generate_with_retry_go att max_retries max_chapters min_chapter_length rest
      else .ok cs
    | .error e =>
      if a = max_retries - 1 then .error e
      else generate_with_retry_go att max_retries max_chapters min_chapter_length rest

/-- `LLMProcessor._generate_with_retry` (llm_processor.py lines 142-213). -/
def generate_with_retry (att : Nat → Except String (List Cand))
    (max_chapters : Nat) (min_chapter_length : ℚ) (max_retries : Nat) :
    Except String (List Cand) :=
  generate_with_retry_go att max_retries max_chapters min_chapter_length
    (List.range max_retries)

/-- `LLMProcessor.generate_chapters` (llm_processor.py lines 69-140): run the
retry loop, then validate and process the resulting candidates.  An exception
escaping `_generate_with_retry` is re-raised unchanged by the handler on
lines 138-140. -/
def generate_chapters (att : Nat → Except String (List Cand))
    (video_duration : ℚ) (max_chapters : Nat) (min_chapter_length : ℚ) :
    Except String (List Cand) :=
  (generate_with_retry att max_chapters min_chapter_length defaultMaxRetries).map
    fun cs => validate_and_process_chapters cs video_duration min_chapter_length

/-- A video row (`src/models/video.py`) with the fields the dispatcher
touches. -/
structure VideoRec where
  id : String
  processing_status : String
  duration : ℚ
deriving DecidableEq, Repr

/-- Python exceptions raised along the dispatcher paths. -/
inductive PyErr where
  | valueError (msg : String)
  | attributeError (name : String)
  | unboundLocalError (name : String)
deriving DecidableEq, Repr

/-- Persistent state seen by the dispatcher: video rows, job rows, the task
queue's next fresh handle, and the log of submitted tasks as
(video id, job id, task handle) triples. -/
structure PipeState where
  videos : List VideoRec
  jobs : List Job
  nextTaskId : Nat
  submitted : List (String × String × Nat)
deriving DecidableEq, Repr

/-- `Video.get_by_id` (base.py lines 44-47). -/
def findVideo (st : PipeState) (vid : String) : Option VideoRec :=
  st.videos.find? (fun v => v.id = vid)

/-- `ProcessingJob.get_by_id` (base.py lines 44-47). -/
def findJob (st : PipeState) (jid : String) : Option Job :=
  st.jobs.find? (fun j => j.id = jid)

/-- `job.save()`: write back the row carrying this job's id. -/
def saveJob (st : PipeState) (j : Job) : PipeState :=
  { st with jobs := st.jobs.map (fun x => if x.id = j.id then j else x) }

/-- `video.processing_status = s; video.save()`. -/
def saveVideoStatus (st : PipeState) (vid : String) (status : String) :
    PipeState :=
  { st with
    videos := st.videos.map fun v =>
      if v.id = vid then { v with processing_status := status } else v }

/-- The classmethods that exist on `ProcessingJob`: those defined in
`src/models/processing_job.py` (lines 173-193) plus those inherited from
`BaseModel` (`src/models/base.py` lines 43-50).  `get_active_job_for_video`,
which `ProcessingPipeline.start_processing` calls on line 74, is not among
them, nor defined anywhere else in the repository. -/
def processingJobClassMethods : List String :=
  ["get_by_id", "get_all",
   "get_active_jobs", "get_by_video", "get_latest_by_video", "get_by_status"]

/-- Python attribute access on the `ProcessingJob` class; `none` models an
`AttributeError` raised at the access site. -/
def jobClassAttr (n : String) : Option Unit :=
  if n ∈ processingJobClassMethods then some () else none

/-- The metadata dictionary built in `ProcessingJob.__init__` (lines 64-72). -/
def initMetadata : List (String × PyVal) :=
  [("asr_duration", PyVal.null), ("transcript_length", PyVal.null),
   ("chapters_generated", PyVal.null), ("llm_inference_time", PyVal.null),
   ("model_used", PyVal.null), ("processing_errors", PyVal.errs [])]

/-- Result record of a `start_processing` call (processing_pipeline.py lines
77-81 and 103-109). -/
structure StartResult where
  job_id : String
  status : String
deriving DecidableEq, Repr

/-- Lines 75-109 of `start_processing`: the body that would run after the
`get_active_job_for_video` class-attribute lookup succeeded, with
`existing_job` the hypothetical result of that (missing) classmethod.  When a
job is found it is returned unchanged; otherwise a new UPLOADING job is
created and saved, the video marked processing, a task submitted and its
handle stored on the job. -/
def start_processing_after_lookup (st : PipeState) (video_id : String)
    (newJobId : String) (existing_job : Option Job) :
    PipeState × StartResult :=
  match existing_job with
  | some existing =>
      (st, { job_id := existing.id, status := "already_processing" })
  | none =>
      let job : Job :=
        { id := newJobId, video_id := video_id,
          status := ProcessingStage.UPLOADING, progress := 0,
          start_time := none, end_time := none,
          error_message := none, error_details := none,
          stage_progress := initStageProgress,
          metadata := initMetadata, task_id := none }
      let st1 := { st with jobs := st.jobs ++ [job] }
      let st2 := saveVideoStatus st1 video_id "processing"
      let tid := st2.nextTaskId
      let st3 := { st2 with
        nextTaskId := st2.nextTaskId + 1,
        submitted := st2.submitted ++ [(video_id, newJobId, tid)] }
      let st4 := saveJob st3 { job with task_id := some tid }
      (st4, { job_id := newJobId, status := "started" })

/-- `ProcessingPipeline.start_processing` (processing_pipeline.py lines
51-113).  The video is looked up (ValueError when missing, re-raised by the
handler on lines 111-113); then line 74 accesses
`ProcessingJob.get_active_job_for_video`, a classmethod that exists nowhere
in the repository, so the access raises `AttributeError`, which the `except`
block logs and re-raises.  `lookupActive` models the hypothetical behaviour
of the missing classmethod; it is never consulted because the attribute
access fails first. -/
def start_processing (st : PipeState) (video_id : String)
    (newJobId : String) (lookupActive : PipeState → String → Option Job) :
    Except PyErr (PipeState × StartResult) :=
  match findVideo st video_id with
  | none => .error (.valueError ("Video " ++ video_id ++ " not found"))
  | some _ =>
      match jobClassAttr "get_active_job_for_video" with
      | none => .error (.attributeError "get_active_job_for_video")
      | some _ =>
          .ok (start_processing_after_lookup st video_id newJobId
            (lookupActive st video_id))

/-- Result record of a successful `restart_job` call (lines 234-239). -/
structure RestartResult where
  job_id : String
  task_id : Nat
  status : String
deriving DecidableEq, Repr

/-- The reset block of `restart_job` (processing_pipeline.py lines 197-212):
stage UPLOADING, progress 0, error message/details cleared, end time cleared,
start time set to now, task handle cleared, stage-progress map rebuilt over
the non-terminal stages. -/
def resetJob (now : Nat) (job : Job) : Job :=
  { job with status := ProcessingStage.UPLOADING, progress := 0,
             error_message := none, error_details := none,
             end_time := none, start_time := some now, task_id := none,
             stage_progress := initStageProgress }

/-- `ProcessingPipeline.restart_job` (processing_pipeline.py lines 186-243):
ValueError when the job is missing or its stage value is not "error"
(nothing is mutated in either case, the exception propagates); otherwise the
job state is reset (stage UPLOADING, progress 0, errors cleared, end time
cleared, start time set to now, task handle cleared, stage-progress map
rebuilt over the non-terminal stages), the video is marked processing, a
fresh task is submitted and its handle stored on the job. -/
def restart_job (now : Nat) (st : PipeState) (job_id : String) :
    Except PyErr (PipeState × RestartResult) :=
  match findJob st job_id with
  | none => .error (.valueError ("Job " ++ job_id ++ " not found"))
  | some job =>
      if stageValue job.status ≠ "error" then
        .error (.valueError "Can only restart failed jobs")
      else
        let job1 : Job := resetJob now job
        let st1 := saveJob st job1
        let st2 := saveVideoStatus st1 job.video_id "processing"
        let tid := st2.nextTaskId
        let st3 := { st2 with
          nextTaskId := st2.nextTaskId + 1,
          submitted := st2.submitted ++ [(job.video_id, job_id, tid)] }
        let job2 : Job := { job1 with task_id := some tid }
        let st4 := saveJob st3 job2
        .ok (st4, { job_id := job_id, task_id := tid, status := "restarted" })

/-- Outcome of one `process_video_task` execution: normal completion, the
`raise self.retry(...)` on line 398, or an exception escaping the except
block itself. -/
inductive TaskOutcome where
  | finished (chapters : Nat)
  | retryRaised (error_message : String)
  | uncaught (e : PyErr)
deriving DecidableEq, Repr

/-- Trace of one `process_video_task` execution: resulting state, outcome,
and labels for the body steps that actually ran. -/
structure TaskRun where
  state : PipeState
  outcome : TaskOutcome
  steps : List String
deriving DecidableEq, Repr

/-- The message f"Processing failed: ..." built on line 380 for the failed
enum attribute access on line 325 (the exact CPython `AttributeError` text is
irrelevant to the claims). -/
def processingAttrErrMsg : String :=
  "Processing failed: type object ProcessingStage has no attribute PROCESSING"

/-- The `except` block of `process_video_task` (lines 379-398): when a job
was found, mark it failed (`mark_error`, which itself raises once the end
time is already set), save it, mark the video failed, notify, then re-raise
through `self.retry`. -/
def task_error_handler (now : Nat) (st : PipeState) (video_id : String)
    (job : Option Job) (msg : String) (details : Option String)
    (steps : List String) : TaskRun :=
  match job with
  | none =>
      { state := st, outcome := .retryRaised msg,
        steps := steps ++ ["error_handler"] }
  | some j =>
      let r := mark_error now j msg details
      if r.2 then
        { state := st, outcome := .uncaught (.unboundLocalError "datetime"),
          steps := steps ++ ["error_handler"] }
      else
        let st1 := saveJob st r.1
        let st2 := saveVideoStatus st1 video_id "failed"
        { state := st2, outcome := .retryRaised msg,
          steps := steps ++ ["error_handler"] }

/-- `process_video_task` (processing_pipeline.py lines 304-398).  After the
job lookup, line 325 evaluates `ProcessingStage.PROCESSING`; the enum has no
such member, so the access raises `AttributeError` before any processing
step, and control passes to the task's error handler.  `processVideo`
abstracts the `ChapterProcessor.process_video` call of the success path,
which is unreachable. -/
def process_video_task (now : Nat) (st : PipeState)
    (video_id job_id : String)
    (processVideo : PipeState → Except String (PipeState × Nat)) : TaskRun :=
  match findJob st job_id with
  | none =>
      task_error_handler now st video_id none
        ("Processing failed: Job " ++ job_id ++ " not found") none
        ["lookup_job"]
  | some job =>
      match stageAttr "PROCESSING" with
      | none =>
          task_error_handler now st video_id (some job) processingAttrErrMsg
            (some "AttributeError: PROCESSING") ["lookup_job"]
      | some stg =>
          let job1 : Job := { job with status := stg }
          let st1 := saveJob st job1
          match processVideo st1 with
          | .ok (st2, chapters) =>
              let st3 := saveVideoStatus st2 video_id "completed"
              { state := st3, outcome := .finished chapters,
                steps := ["lookup_job", "set_processing_stage",
                          "process_video"] }
          | .error e =>
              task_error_handler now st1 video_id (some job1)
                ("Processing failed: " ++ e) (some e)
                ["lookup_job", "set_processing_stage", "process_video"]

/-- Example job used for concrete evaluations: a job in the middle of
transcription, end time unset. -/
def jobT : Job :=
  { id := "job-1", video_id := "vid-1",
    status := ProcessingStage.GENERATING_TRANSCRIPT,
    progress := 40, start_time := some 10, end_time := none,
    error_message := none, error_details := none,
    stage_progress := initStageProgress, metadata := [], task_id := some 7 }

/-- Example video row for concrete evaluations. -/
def videoV : VideoRec :=
  { id := "vid-1", processing_status := "processing", duration := 3600 }

/-- Example dispatcher state: one video with one non-terminal job. -/
def pipeSt : PipeState :=
  { videos := [videoV], jobs := [jobT], nextTaskId := 5, submitted := [] }

/-- Example failed job for the restart witness. -/
def jobE : Job :=
  { id := "job-9", video_id := "vid-1",
    status := ProcessingStage.ERROR,
    progress := 35, start_time := some 10, end_time := some 50,
    error_message := some "boom", error_details := none,
    stage_progress := initStageProgress, metadata := [], task_id := some 7 }

/-- Example dispatcher state holding the failed job. -/
def pipeStE : PipeState :=
  { videos := [videoV], jobs := [jobE], nextTaskId := 7, submitted := [] }

/-- C8: for each fixed stage the aggregation map is monotonically
non-decreasing in the local progress, and for local progress in [0,100] the
aggregated global progress lies in the stage's global range: [0,50] for
transcription and [50,85] for chapter generation. -/
theorem aggregator_monotone_and_bounded :
    (∀ p q : ℚ, p ≤ q → transcription_progress p ≤ transcription_progress q) ∧
    (∀ p q : ℚ, p ≤ q → chapter_progress p ≤ chapter_progress q) ∧
    (∀ p : ℚ, 0 ≤ p → p ≤ 100 →
      0 ≤ transcription_progress p ∧ transcription_progress p ≤ 50) ∧
    (∀ p : ℚ, 0 ≤ p → p ≤ 100 →
      50 ≤ chapter_progress p ∧ chapter_progress p ≤ 85) := by
  refine ⟨?_, ?_, ?_, ?_⟩
  · intro p q h
    unfold transcription_progress
    nlinarith
  · intro p q h
    unfold chapter_progress
    nlinarith
  · intro p h0 h100
    unfold transcription_progress
    constructor <;> nlinarith
  · intro p h0 h100
    unfold chapter_progress
    constructor <;> nlinarith

/-- Projection of `update_progress`: the stored progress is the clamped input. -/
theorem up_progress_eq (now : Nat) (j : Job) (stage : Option ProcessingStage)
    (p : ℚ) (sp : List (String × ℚ)) (md : List (String × PyVal)) :
    (update_progress now j stage (some p) sp md).progress = min 100 (max 0 p) := by
  cases stage <;> unfold update_progress <;> dsimp only <;> split_ifs <;> rfl

/-- Projection of `update_progress`: the resulting status. -/
theorem up_status_eq (now : Nat) (j : Job) (stage : Option ProcessingStage)
    (p : ℚ) (sp : List (String × ℚ)) (md : List (String × PyVal)) :
    (update_progress now j stage (some p) sp md).status =
      (if 100 ≤ min 100 (max 0 p) ∧ stage.getD j.status ≠ ProcessingStage.ERROR
       then ProcessingStage.COMPLETE else stage.getD j.status) := by
  cases stage <;> unfold update_progress <;> dsimp only [Option.getD] <;>
    split_ifs <;> rfl

/-- Projection of `update_progress`: the resulting end time. -/
theorem up_end_eq (now : Nat) (j : Job) (stage : Option ProcessingStage)
    (p : ℚ) (sp : List (String × ℚ)) (md : List (String × PyVal)) :
    (update_progress now j stage (some p) sp md).end_time =
      (if 100 ≤ min 100 (max 0 p) ∧ stage.getD j.status ≠ ProcessingStage.ERROR
       then (if j.end_time = none then some now else j.end_time)
       else j.end_time) := by
  cases stage <;> unfold update_progress <;> dsimp only [Option.getD] <;>
    split_ifs <;> rfl

/-- C7: whenever `update_progress` is called with a progress value, the stored
progress afterwards lies in [0,100] (out-of-range inputs are clamped); and if
the resulting progress is ≥ 100 while the current stage (the supplied one, or
the unchanged one when none is supplied) is not ERROR, the stage is
auto-promoted to COMPLETE and the end time is stamped exactly when it was
unset. -/
theorem update_progress_clamps_and_promotes (now : Nat) (j : Job)
    (stage : Option ProcessingStage) (p : ℚ) (sp : List (String × ℚ))
    (md : List (String × PyVal)) :
    (0 ≤ (update_progress now j stage (some p) sp md).progress ∧
      (update_progress now j stage (some p) sp md).progress ≤ 100) ∧
    (100 ≤ (update_progress now j stage (some p) sp md).progress →
      stage.getD j.status ≠ ProcessingStage.ERROR →
      (update_progress now j stage (some p) sp md).status =
          ProcessingStage.COMPLETE ∧
      (update_progress now j stage (some p) sp md).end_time =
          (if j.end_time = none then some now else j.end_time)) := by
  have hp := up_progress_eq now j stage p sp md
  have hs := up_status_eq now j stage p sp md
  have he := up_end_eq now j stage p sp md
  have h0 : (0 : ℚ) ≤ min 100 (max 0 p) := le_min (by norm_num) (le_max_left 0 p)
  have h1 : min 100 (max 0 p) ≤ 100 := min_le_left _ _
  refine ⟨⟨by rw [hp]; exact h0, by rw [hp]; exact h1⟩, ?_⟩
  intro hge hne
  have hcond : 100 ≤ min 100 (max 0 p) ∧
      stage.getD j.status ≠ ProcessingStage.ERROR := ⟨by rwa [hp] at hge, hne⟩
  rw [hs, he, if_pos hcond, if_pos hcond]
  exact ⟨rfl, rfl⟩

/-- Witness for C7: on `jobT` with supplied progress 150, the stored progress
clamps to 100, the stage auto-promotes to COMPLETE and the end time is
stamped. -/
theorem update_progress_clamps_and_promotes_witness :
    ((0 ≤ (update_progress 7 jobT none (some 150) [] []).progress ∧
        (update_progress 7 jobT none (some 150) [] []).progress ≤ 100) ∧
      (update_progress 7 jobT none (some 150) [] []).status =
          ProcessingStage.COMPLETE ∧
      (update_progress 7 jobT none (some 150) [] []).end_time = some 7) := by
  have h := update_progress_clamps_and_promotes 7 jobT none 150 [] []
  refine ⟨h.1, ?_⟩
  have h2 := h.2 (by decide) (by decide)
  simpa using h2

/-- C6, observed divergence of `mark_error`: the history entry is appended
*after* the status has been set to ERROR, so the recorded stage is always
"error" rather than the stage the job was in at the moment of failure; and a
second `mark_error` call (end time now set, so the `datetime` import on line
145 is skipped) raises `UnboundLocalError` instead of appending another
history entry. -/
theorem mark_error_stage_recorded_and_repeat_raises :
    stageValue jobT.status = "generating_transcript" ∧
    (mark_error 100 jobT "boom" none).2 = false ∧
    ((mark_error 100 jobT "boom" none).1.metadata.lookup "processing_errors" =
      some (PyVal.errs
        [{ timestamp := 100, stage := "error", message := "boom",
           details := none }])) ∧
    (mark_error 100 jobT "boom" none).1.end_time = some 100 ∧
    (mark_error 200 (mark_error 100 jobT "boom" none).1 "again" none).2 = true := by
  decide

/-- Witness for C8 at local progress 40 in both stages. -/
theorem aggregator_monotone_and_bounded_witness :
    ((0 : ℚ) ≤ 40 ∧ (40 : ℚ) ≤ 100) ∧
    (0 ≤ transcription_progress 40 ∧ transcription_progress 40 ≤ 50) ∧
    (50 ≤ chapter_progress 40 ∧ chapter_progress 40 ≤ 85) :=
  ⟨⟨by norm_num, by norm_num⟩,
   aggregator_monotone_and_bounded.2.2.1 40 (by norm_num) (by norm_num),
   aggregator_monotone_and_bounded.2.2.2 40 (by norm_num) (by norm_num)⟩

/-- C2, counterexample: when every one of the 3 generation attempts raises an
adapter exception, `generate_chapters` does not return a fallback list; the
exception propagates (llm_processor.py lines 208-209 re-raise on the last
attempt, and lines 138-140 re-raise out of `generate_chapters`). -/
theorem generate_chapters_all_raise_cex :
    generate_chapters (fun _ => Except.error "adapter failure") 3600
      defaultMaxChapters defaultMinChapterLength =
      Except.error "adapter failure" := rfl

/-- C2 amended: if every one of the up-to-3 generation attempts raises an
adapter exception, `generate_chapters` propagates the exception of the final
attempt and returns no chapter list; the fallback list is reached only when
the attempts complete without raising. -/
theorem generate_chapters_all_raise_propagates
    (att : Nat → Except String (List Cand)) (d : ℚ) (maxCh : Nat) (minLen : ℚ)
    (h : ∀ i, i < defaultMaxRetries → ∃ e, att i = Except.error e) :
    generate_chapters att d maxCh minLen = att 2 := by
  obtain ⟨e0, h0⟩ := h 0 (by norm_num [defaultMaxRetries])
  obtain ⟨e1, h1⟩ := h 1 (by norm_num [defaultMaxRetries])
  obtain ⟨e2, h2⟩ := h 2 (by norm_num [defaultMaxRetries])
  have hr : List.range defaultMaxRetries = [0, 1, 2] := rfl
  simp [generate_chapters, generate_with_retry, hr,
    generate_with_retry_go, h0, h1, h2, defaultMaxRetries, Except.map]

/-- Witness for the amended C2 with an adapter that always raises "boom". -/
theorem generate_chapters_all_raise_propagates_witness :
    (∀ i, i < defaultMaxRetries →
      ∃ e, (fun _ => (Except.error "boom" : Except String (List Cand))) i =
        Except.error e) ∧
    generate_chapters (fun _ => Except.error "boom") 3600 15 30 =
      (fun _ => (Except.error "boom" : Except String (List Cand))) 2 :=
  ⟨fun _ _ => ⟨"boom", rfl⟩,
   generate_chapters_all_raise_propagates _ 3600 15 30 (fun _ _ => ⟨"boom", rfl⟩)⟩

/-- C5, counterexample: when every attempt completes without raising but
yields no candidate, the synthesized fallback at the *default* `max_chapters`
has 15 entries, not 5 (line 213 passes `max_chapters`, whose default in
`generate_chapters` is 15; the count 5 appears only in
`_validate_and_process_chapters`). -/
theorem fallback_count_cex :
    generate_with_retry (fun _ => Except.ok []) defaultMaxChapters
      defaultMinChapterLength defaultMaxRetries =
      Except.ok (create_fallback_chapters defaultMaxChapters
        defaultMinChapterLength) ∧
    (create_fallback_chapters defaultMaxChapters defaultMinChapterLength).length
      = 15 ∧
    ¬((create_fallback_chapters defaultMaxChapters
        defaultMinChapterLength).length = 5) := by
  refine ⟨rfl, ?_, ?_⟩ <;>
    rw [create_fallback_chapters, List.length_map, List.length_range] <;>
    norm_num [defaultMaxChapters]

/-- C5 amended: when all attempts complete without raising but none produces
any valid candidate, `_generate_with_retry` synthesizes fallback chapters
whose count equals the `max_chapters` argument (default 15, not 5), with the
i-th chapter starting at `i * min_chapter_length`, titled "Chapter i+1", and
with confidence exactly 0.5. -/
theorem fallback_synthesis (att : Nat → Except String (List Cand))
    (maxCh : Nat) (minLen : ℚ)
    (h : ∀ i, i < defaultMaxRetries → att i = Except.ok []) :
    generate_with_retry att maxCh minLen defaultMaxRetries =
      Except.ok (create_fallback_chapters maxCh minLen) ∧
    (create_fallback_chapters maxCh minLen).length = maxCh ∧
    (∀ i, i < maxCh → (create_fallback_chapters maxCh minLen)[i]? =
      some { start_time := (i : ℚ) * minLen,
             title := "Chapter " ++ toString (i + 1),
             confidence := 0.5 }) := by
  have h0 := h 0 (by norm_num [defaultMaxRetries])
  have h1 := h 1 (by norm_num [defaultMaxRetries])
  have h2 := h 2 (by norm_num [defaultMaxRetries])
  have hr : List.range defaultMaxRetries = [0, 1, 2] := rfl
  refine ⟨?_, ?_, ?_⟩
  · simp [generate_with_retry, hr, generate_with_retry_go, h0, h1, h2]
  · rw [create_fallback_chapters, List.length_map, List.length_range]
  · intro i hi
    rw [create_fallback_chapters, List.getElem?_map, List.getElem?_range hi]
    rfl

/-- Witness for the amended C5 with an adapter that always parses nothing,
`max_chapters = 4`, `min_chapter_length = 30`. -/
theorem fallback_synthesis_witness :
    (∀ i, i < defaultMaxRetries →
      (fun _ => (Except.ok [] : Except String (List Cand))) i = Except.ok []) ∧
    (generate_with_retry (fun _ => Except.ok []) 4 30 defaultMaxRetries =
      Except.ok (create_fallback_chapters 4 30) ∧
    (create_fallback_chapters 4 30).length = 4 ∧
    (∀ i, i < 4 → (create_fallback_chapters 4 30)[i]? =
      some { start_time := (i : ℚ) * 30,
             title := "Chapter " ++ toString (i + 1),
             confidence := 0.5 })) :=
  ⟨fun _ _ => rfl, fallback_synthesis _ 4 30 (fun _ _ => rfl)⟩

unseal Rat.mul Rat.add Rat.sub Rat.inv Rat.ofScientific in
/-- C4: the merge pass keeps the first candidate unconditionally; each
subsequent candidate is kept when its gap to the last kept candidate's start
time is at least `min_chapter_length`, replaces the last kept candidate when
the gap is smaller and its confidence is strictly greater, and is discarded
otherwise; and on the spec's end-to-end input (duration 3600,
min_chapter_length 30) the final saved chapters are Intro[0,320), with
Body replaced by Body2[320,2700), and Wrap[2700, open). -/
theorem merge_rule_and_e2e :
    (∀ minLen : ℚ, mergeClose minLen [] = []) ∧
    (∀ (minLen : ℚ) (c : Cand) (cs : List Cand),
      mergeClose minLen (c :: cs) = mergeGo minLen c [] cs) ∧
    (∀ (minLen : ℚ) (last c : Cand) (accRev cs : List Cand),
      minLen ≤ c.start_time - last.start_time →
      mergeGo minLen last accRev (c :: cs) = mergeGo minLen c (last :: accRev) cs) ∧
    (∀ (minLen : ℚ) (last c : Cand) (accRev cs : List Cand),
      c.start_time - last.start_time < minLen →
      last.confidence < c.confidence →
      mergeGo minLen last accRev (c :: cs) = mergeGo minLen c accRev cs) ∧
    (∀ (minLen : ℚ) (last c : Cand) (accRev cs : List Cand),
      c.start_time - last.start_time < minLen →
      ¬(last.confidence < c.confidence) →
      mergeGo minLen last accRev (c :: cs) = mergeGo minLen last accRev cs) ∧
    save_chapters (validate_and_process_chapters
      [⟨0, "Intro", 0.9⟩, ⟨300, "Body", 0.6⟩, ⟨320, "Body2", 0.95⟩,
       ⟨2700, "Wrap", 0.85⟩] 3600 30) =
      [⟨"Intro", 0, some 320, 0.9, true, 1⟩,
       ⟨"Body2", 320, some 2700, 0.95, true, 2⟩,
       ⟨"Wrap", 2700, none, 0.85, true, 3⟩] := by
  refine ⟨fun _ => rfl, fun _ _ _ => rfl, ?_, ?_, ?_, ?_⟩
  · intro minLen last c accRev cs hgap
    simp [mergeGo, hgap]
  · intro minLen last c accRev cs hgap hconf
    simp [mergeGo, not_le.mpr hgap, hconf]
  · intro minLen last c accRev cs hgap hconf
    simp [mergeGo, not_le.mpr hgap, hconf]
  · decide

/-- Witness for C4 instantiating the keep, replace and discard branches at
concrete candidates. -/
theorem merge_rule_and_e2e_witness :
    ((30 : ℚ) ≤ (45 : ℚ) - 0) ∧
    mergeGo 30 ⟨0, "A", 0.9⟩ [] [⟨45, "B", 0.8⟩] =
      mergeGo 30 ⟨45, "B", 0.8⟩ [⟨0, "A", 0.9⟩] [] ∧
    ((20 : ℚ) - 0 < 30 ∧ (0.6 : ℚ) < 0.95) ∧
    mergeGo 30 ⟨0, "A", 0.6⟩ [] [⟨20, "B", 0.95⟩] =
      mergeGo 30 ⟨20, "B", 0.95⟩ [] [] ∧
    ((20 : ℚ) - 0 < 30 ∧ ¬((0.9 : ℚ) < 0.5)) ∧
    mergeGo 30 ⟨0, "A", 0.9⟩ [] [⟨20, "B", 0.5⟩] =
      mergeGo 30 ⟨0, "A", 0.9⟩ [] [] := by
  refine ⟨by norm_num, ?_, ⟨by norm_num, by norm_num⟩, ?_, ⟨by norm_num, by norm_num⟩, ?_⟩
  · exact merge_rule_and_e2e.2.2.1 30 ⟨0, "A", 0.9⟩ ⟨45, "B", 0.8⟩ [] []
      (by norm_num)
  · exact merge_rule_and_e2e.2.2.2.1 30 ⟨0, "A", 0.6⟩ ⟨20, "B", 0.95⟩ [] []
      (by norm_num) (by norm_num)
  · exact merge_rule_and_e2e.2.2.2.2.1 30 ⟨0, "A", 0.9⟩ ⟨20, "B", 0.5⟩ [] []
      (by norm_num) (by norm_num)

/-- The merge pass preserves sortedness by start time.  Invariant: the kept
prefix (reversed accumulator plus current last) is sorted, the remaining
candidates are sorted, and every remaining candidate starts no earlier than
the current last kept one. -/
theorem mergeGo_sorted (minLen : ℚ) :
    ∀ (cs : List Cand) (last : Cand) (accRev : List Cand),
      List.Sorted candLe (accRev.reverse ++ [last]) →
      (∀ x ∈ cs, last.start_time ≤ x.start_time) →
      List.Sorted candLe cs →
      List.Sorted candLe (mergeGo minLen last accRev cs) := by
  intro cs
  induction cs with
  | nil =>
      intro last accRev hacc _ _
      simpa [mergeGo] using hacc
  | cons c cs ih =>
      intro last accRev hacc hlb hcs
      have hlc : last.start_time ≤ c.start_time := hlb c (List.mem_cons_self c cs)
      have hcs' : List.Sorted candLe cs := hcs.of_cons
      have hcb : ∀ x ∈ cs, c.start_time ≤ x.start_time :=
        fun x hx => List.rel_of_sorted_cons hcs x hx
      have haccparts := List.pairwise_append.mp hacc
      simp only [mergeGo]
      split_ifs with h1 h2
      · refine ih c (last :: accRev) ?_ hcb hcs'
        rw [List.reverse_cons]
        refine List.pairwise_append.mpr ⟨hacc, List.pairwise_singleton _ _, ?_⟩
        intro a ha b hb
        rw [List.mem_singleton] at hb
        subst hb
        rcases List.mem_append.mp ha with ha2 | ha2
        · exact le_trans
            (haccparts.2.2 a ha2 last (List.mem_singleton_self last)) hlc
        · rw [List.mem_singleton] at ha2
          subst ha2
          exact hlc
      · refine ih c accRev ?_ hcb hcs'
        refine List.pairwise_append.mpr
          ⟨haccparts.1, List.pairwise_singleton _ _, ?_⟩
        intro a ha b hb
        rw [List.mem_singleton] at hb
        subst hb
        exact le_trans
          (haccparts.2.2 a ha last (List.mem_singleton_self last)) hlc
      · exact ih last accRev hacc (fun x hx => le_trans hlc (hcb x hx)) hcs'

/-- Every element of the merge pass output comes from the kept prefix, the
current last, or the remaining candidates. -/
theorem mergeGo_subset (minLen : ℚ) :
    ∀ (cs : List Cand) (last : Cand) (accRev : List Cand) (y : Cand),
      y ∈ mergeGo minLen last accRev cs → y ∈ accRev ∨ y = last ∨ y ∈ cs := by
  intro cs
  induction cs with
  | nil =>
      intro last accRev y hy
      simp only [mergeGo, List.reverse_cons, List.mem_append,
        List.mem_reverse, List.mem_singleton] at hy
      rcases hy with h | h
      · exact Or.inl h
      · exact Or.inr (Or.inl h)
  | cons c cs ih =>
      intro last accRev y hy
      simp only [mergeGo] at hy
      split_ifs at hy with h1 h2
      · rcases ih _ _ y hy with h | h | h
        · rcases List.mem_cons.mp h with h' | h'
          · exact Or.inr (Or.inl h')
          · exact Or.inl h'
        · subst h
          exact Or.inr (Or.inr (List.mem_cons_self _ _))
        · exact Or.inr (Or.inr (List.mem_cons_of_mem _ h))
      · rcases ih _ _ y hy with h | h | h
        · exact Or.inl h
        · subst h
          exact Or.inr (Or.inr (List.mem_cons_self _ _))
        · exact Or.inr (Or.inr (List.mem_cons_of_mem _ h))
      · rcases ih _ _ y hy with h | h | h
        · exact Or.inl h
        · exact Or.inr (Or.inl h)
        · exact Or.inr (Or.inr (List.mem_cons_of_mem _ h))

/-- The merge pass never discards all chapters. -/
theorem mergeGo_ne_nil (minLen : ℚ) :
    ∀ (cs : List Cand) (last : Cand) (accRev : List Cand),
      mergeGo minLen last accRev cs ≠ [] := by
  intro cs
  induction cs with
  | nil =>
      intro last accRev
      simp [mergeGo]
  | cons c cs ih =>
      intro last accRev
      simp only [mergeGo]
      split_ifs <;> apply ih

/-- `mergeClose` of a sorted candidate list is sorted. -/
theorem mergeClose_sorted (minLen : ℚ) (l : List Cand)
    (hl : List.Sorted candLe l) :
    List.Sorted candLe (mergeClose minLen l) := by
  cases l with
  | nil => simp [mergeClose]
  | cons c cs =>
      exact mergeGo_sorted minLen cs c [] (by simp)
        (fun x hx => List.rel_of_sorted_cons hl x hx) hl.of_cons

/-- `mergeClose` output elements come from the input. -/
theorem mergeClose_subset (minLen : ℚ) (l : List Cand) (y : Cand)
    (hy : y ∈ mergeClose minLen l) : y ∈ l := by
  cases l with
  | nil => simp [mergeClose] at hy
  | cons c cs =>
      simp only [mergeClose] at hy
      rcases mergeGo_subset minLen cs c [] y hy with h | h | h
      · simp at h
      · subst h
        exact List.mem_cons_self _ _
      · exact List.mem_cons_of_mem _ h

/-- `mergeClose` of a non-empty list is non-empty. -/
theorem mergeClose_ne_nil (minLen : ℚ) (c : Cand) (cs : List Cand) :
    mergeClose minLen (c :: cs) ≠ [] := by
  simp only [mergeClose]
  exact mergeGo_ne_nil minLen cs c []

/-- The confidence cap of `_validate_and_process_chapters` (lines 347-351)
yields a sorted list when its input is sorted. -/
theorem cap_sorted (m : List Cand) (hm : List.Sorted candLe m) :
    List.Sorted candLe
      (if 15 < m.length then sortByStart ((sortByConfDesc m).take 15) else m) := by
  by_cases h : 15 < m.length
  · rw [if_pos h]
    exact List.sorted_insertionSort candLe _
  · rwa [if_neg h]

/-- The confidence cap returns at most 15 chapters. -/
theorem cap_length (m : List Cand) :
    (if 15 < m.length then sortByStart ((sortByConfDesc m).take 15) else m).length
      ≤ 15 := by
  by_cases h : 15 < m.length
  · rw [if_pos h]
    simp only [sortByStart, List.length_insertionSort]
    exact List.length_take_le 15 _
  · rw [if_neg h]
    exact Nat.le_of_not_lt h

/-- Elements surviving the confidence cap come from its input. -/
theorem cap_subset (m : List Cand) (y : Cand)
    (hy : y ∈ (if 15 < m.length then
      sortByStart ((sortByConfDesc m).take 15) else m)) : y ∈ m := by
  by_cases h : 15 < m.length
  · rw [if_pos h] at hy
    rw [sortByStart, List.mem_insertionSort] at hy
    have h2 := List.mem_of_mem_take hy
    rw [sortByConfDesc, List.mem_insertionSort] at h2
    exact h2
  · rwa [if_neg h] at hy

/-- The confidence cap of a non-empty list is non-empty. -/
theorem cap_ne_nil (m : List Cand) (hne : m ≠ []) :
    (if 15 < m.length then sortByStart ((sortByConfDesc m).take 15) else m)
      ≠ [] := by
  by_cases h : 15 < m.length
  · rw [if_pos h]
    intro hnil
    have hlen := congrArg List.length hnil
    simp only [sortByStart, List.length_insertionSort, List.length_take,
      sortByConfDesc, List.length_nil] at hlen
    omega
  · rwa [if_neg h]

/-- Index-erasing projection of `List.enumFrom`. -/
theorem enumFrom_map_snd {α β : Type} (g : α → β) :
    ∀ (k : Nat) (l : List α),
      (List.enumFrom k l).map (fun p => g p.2) = l.map g
  | _, [] => rfl
  | k, a :: l => by
      simp only [List.enumFrom, List.map, List.cons.injEq]
      exact ⟨trivial, enumFrom_map_snd g (k + 1) l⟩

/-- The 1-based indices produced by `List.enumFrom` form a contiguous range. -/
theorem enumFrom_map_idx {α : Type} :
    ∀ (k : Nat) (l : List α),
      (List.enumFrom k l).map (fun p => p.1 + 1) = List.range' (k + 1) l.length
  | _, [] => rfl
  | k, a :: l => by
      simp only [List.enumFrom, List.map, List.length_cons, List.range'_succ,
        List.cons.injEq]
      exact ⟨trivial, enumFrom_map_idx (k + 1) l⟩

/-- `update_order` keeps the start times of the sorted rows. -/
theorem update_order_map_start (rows : List ChapterRow) :
    (update_order rows).map ChapterRow.start_time =
      (rows.insertionSort rowLe).map ChapterRow.start_time := by
  rw [update_order, List.enum, List.map_map]
  exact enumFrom_map_snd ChapterRow.start_time 0 _

/-- `update_order` assigns the dense 1-based orders 1, 2, ..., n. -/
theorem update_order_map_order (rows : List ChapterRow) :
    (update_order rows).map ChapterRow.order =
      List.range' 1 (rows.insertionSort rowLe).length := by
  rw [update_order, List.enum, List.map_map]
  exact enumFrom_map_idx 0 _

/-- `update_order` preserves the number of rows. -/
theorem update_order_length (rows : List ChapterRow) :
    (update_order rows).length = rows.length := by
  simp [update_order, List.length_insertionSort]

/-- `update_order` output is sorted by start time. -/
theorem update_order_sorted (rows : List ChapterRow) :
    List.Sorted rowLe (update_order rows) := by
  have hs : List.Sorted rowLe (rows.insertionSort rowLe) :=
    List.sorted_insertionSort rowLe rows
  have hmap : List.Pairwise (fun a b : ℚ => a ≤ b)
      ((update_order rows).map ChapterRow.start_time) := by
    rw [update_order_map_start]
    exact List.pairwise_map.mpr hs
  have h3 := List.pairwise_map.mp hmap
  exact h3

/-- The construction loop keeps the candidates' start times in order. -/
theorem buildChapterRows_map_start (cs : List Cand) :
    (buildChapterRows cs).map ChapterRow.start_time = cs.map Cand.start_time := by
  rw [buildChapterRows, List.enum, List.map_map]
  exact enumFrom_map_snd Cand.start_time 0 cs

/-- The construction loop preserves the number of chapters. -/
theorem buildChapterRows_length (cs : List Cand) :
    (buildChapterRows cs).length = cs.length := by
  simp [buildChapterRows]

/-- `save_chapters` preserves the number of chapters. -/
theorem save_chapters_length (cs : List Cand) :
    (save_chapters cs).length = cs.length := by
  rw [save_chapters, update_order_length, buildChapterRows_length]

/-- `save_chapters` output is sorted by start time. -/
theorem save_chapters_sorted (cs : List Cand) :
    List.Sorted rowLe (save_chapters cs) :=
  update_order_sorted _

/-- `save_chapters` assigns the dense 1-based orders 1, ..., n. -/
theorem save_chapters_orders (cs : List Cand) :
    (save_chapters cs).map ChapterRow.order =
      List.range' 1 (save_chapters cs).length := by
  have h1 : (save_chapters cs).length = cs.length := save_chapters_length cs
  rw [save_chapters, update_order_map_order, List.length_insertionSort,
    buildChapterRows_length]
  rw [save_chapters] at h1
  rw [h1]

/-- Every start time of a saved row is the start time of an input candidate. -/
theorem save_chapters_start_mem (cs : List Cand) (q : ℚ)
    (hq : q ∈ (save_chapters cs).map ChapterRow.start_time) :
    q ∈ cs.map Cand.start_time := by
  rw [save_chapters, update_order_map_start] at hq
  have h2 : q ∈ (buildChapterRows cs).map ChapterRow.start_time := by
    rcases List.mem_map.mp hq with ⟨r, hr, hrq⟩
    subst hrq
    exact List.mem_map_of_mem _ ((List.mem_insertionSort _).mp hr)
  rwa [buildChapterRows_map_start] at h2

/-- The synthesized fallback chapters are sorted by start time when the
configured minimum chapter length is non-negative. -/
theorem create_fallback_sorted (n : Nat) (minLen : ℚ) (hm : 0 ≤ minLen) :
    List.Sorted candLe (create_fallback_chapters n minLen) := by
  rw [create_fallback_chapters]
  refine List.Pairwise.map _ ?_ (List.pairwise_lt_range n)
  intro a b hab
  show (a : ℚ) * minLen ≤ (b : ℚ) * minLen
  exact mul_le_mul_of_nonneg_right (by exact_mod_cast le_of_lt hab) hm

/-- The validator output is sorted ascending by start time. -/
theorem validate_sorted (cs : List Cand) (d minLen : ℚ) (hm : 0 ≤ minLen) :
    List.Sorted candLe (validate_and_process_chapters cs d minLen) := by
  unfold validate_and_process_chapters
  by_cases hempty : cs.isEmpty = true
  · rw [if_pos hempty]
    exact create_fallback_sorted 5 minLen hm
  · rw [if_neg hempty]
    dsimp only
    cases hcase : sortByStart cs with
    | nil => simp [mergeClose]
    | cons c rest =>
        dsimp only
        have hs : List.Sorted candLe (c :: rest) := by
          rw [← hcase]
          exact List.sorted_insertionSort candLe cs
        by_cases hpre : 0 < c.start_time
        · rw [if_pos hpre]
          have hs2 : List.Sorted candLe
              ({ start_time := 0, title := "Introduction",
                 confidence := 0.8 } :: c :: rest) := by
            rw [List.sorted_cons]
            refine ⟨?_, hs⟩
            intro b hb
            rcases List.mem_cons.mp hb with h | h
            · subst h
              exact le_of_lt hpre
            · exact le_trans (le_of_lt hpre) (List.rel_of_sorted_cons hs b h)
          exact cap_sorted _ (mergeClose_sorted minLen _
            (List.Pairwise.sublist (List.filter_sublist _) hs2))
        · rw [if_neg hpre]
          exact cap_sorted _ (mergeClose_sorted minLen _
            (List.Pairwise.sublist (List.filter_sublist _) hs))

/-- The validator output has at most 15 chapters. -/
theorem validate_length (cs : List Cand) (d minLen : ℚ) :
    (validate_and_process_chapters cs d minLen).length ≤ 15 := by
  unfold validate_and_process_chapters
  by_cases hempty : cs.isEmpty = true
  · rw [if_pos hempty, create_fallback_chapters, List.length_map,
      List.length_range]
    norm_num
  · rw [if_neg hempty]
    dsimp only
    cases hcase : sortByStart cs with
    | nil => simp [mergeClose]
    | cons c rest =>
        dsimp only
        by_cases hpre : 0 < c.start_time
        · rw [if_pos hpre]
          exact cap_length _
        · rw [if_neg hpre]
          exact cap_length _

/-- The validator output is non-empty for a positive video duration. -/
theorem validate_ne_nil (cs : List Cand) (d minLen : ℚ) (hd : 0 < d) :
    validate_and_process_chapters cs d minLen ≠ [] := by
  unfold validate_and_process_chapters
  by_cases hempty : cs.isEmpty = true
  · rw [if_pos hempty]
    intro h
    have hlen := congrArg List.length h
    rw [create_fallback_chapters, List.length_map, List.length_range,
      List.length_nil] at hlen
    simp at hlen
  · rw [if_neg hempty]
    dsimp only
    cases hcase : sortByStart cs with
    | nil =>
        exfalso
        apply hempty
        have hlen := congrArg List.length hcase
        rw [sortByStart, List.length_insertionSort, List.length_nil] at hlen
        rw [List.isEmpty_iff]
        exact List.length_eq_zero.mp hlen
    | cons c rest =>
        dsimp only
        by_cases hpre : 0 < c.start_time
        · rw [if_pos hpre]
          rw [List.filter_cons_of_pos (by simpa using hd)]
          exact cap_ne_nil _ (mergeClose_ne_nil minLen _ _)
        · rw [if_neg hpre]
          rw [List.filter_cons_of_pos
            (by simpa using lt_of_le_of_lt (not_lt.mp hpre) hd)]
          exact cap_ne_nil _ (mergeClose_ne_nil minLen _ _)

/-- When every candidate has a non-negative start time (and the minimum
length is non-negative), so does every validator output chapter. -/
theorem validate_nonneg (cs : List Cand) (d minLen : ℚ) (hm : 0 ≤ minLen)
    (hnn : ∀ x ∈ cs, 0 ≤ x.start_time) :
    ∀ y ∈ validate_and_process_chapters cs d minLen, 0 ≤ y.start_time := by
  unfold validate_and_process_chapters
  by_cases hempty : cs.isEmpty = true
  · rw [if_pos hempty]
    intro y hy
    rw [create_fallback_chapters] at hy
    rcases List.mem_map.mp hy with ⟨i, _, hiy⟩
    subst hiy
    exact mul_nonneg (Nat.cast_nonneg i) hm
  · rw [if_neg hempty]
    dsimp only
    cases hcase : sortByStart cs with
    | nil =>
        intro y hy
        simp [mergeClose] at hy
    | cons c rest =>
        dsimp only
        have hmem : ∀ x ∈ (c :: rest), 0 ≤ x.start_time := by
          intro x hx
          rw [← hcase, sortByStart, List.mem_insertionSort] at hx
          exact hnn x hx
        by_cases hpre : 0 < c.start_time
        · rw [if_pos hpre]
          intro y hy
          have hy3 := List.mem_of_mem_filter
            (mergeClose_subset _ _ _ (cap_subset _ _ hy))
          rcases List.mem_cons.mp hy3 with h | h
          · subst h
            exact le_rfl
          · exact hmem y h
        · rw [if_neg hpre]
          intro y hy
          exact hmem y (List.mem_of_mem_filter
            (mergeClose_subset _ _ _ (cap_subset _ _ hy)))

unseal Rat.mul Rat.add Rat.sub Rat.inv Rat.ofScientific in
/-- C3, counterexample: on the non-negative candidates (0,"A",0.5),(10,"B",0.9)
with positive duration 3600 and min_chapter_length 30, the merge pass replaces
the kept zero-start chapter with the higher-confidence chapter 10 seconds in,
so the first output chapter starts at 10, not 0. -/
theorem validator_first_start_cex :
    ((save_chapters (validate_and_process_chapters
        [⟨0, "A", 0.5⟩, ⟨10, "B", 0.9⟩] 3600 30)).head?.map
          ChapterRow.start_time) = some 10 ∧
    ¬((10 : ℚ) = 0) := by
  constructor
  · decide
  · norm_num

/-- C3 amended: for every candidate list, positive video duration, and
non-negative min_chapter_length, the saved Validator/Merger output is sorted
ascending by start_time (so is the pre-save candidate list), carries the
dense 1-based orders 1..n, has length at most 15, and is non-empty; when
every candidate start time is non-negative, every output start time
(in particular the first) is non-negative.  Start time exactly 0 for the
first chapter is not guaranteed: the merge pass may replace the zero-start
chapter with a close higher-confidence successor, the 15-cap may drop it,
and negative start times pass through unchanged. -/
theorem validator_output_guarantees (cs : List Cand) (d minLen : ℚ)
    (hd : 0 < d) (hm : 0 ≤ minLen) :
    List.Sorted candLe (validate_and_process_chapters cs d minLen) ∧
    List.Sorted rowLe (save_chapters (validate_and_process_chapters cs d minLen)) ∧
    ((save_chapters (validate_and_process_chapters cs d minLen)).map
        ChapterRow.order =
      List.range' 1
        (save_chapters (validate_and_process_chapters cs d minLen)).length) ∧
    (save_chapters (validate_and_process_chapters cs d minLen)).length ≤ 15 ∧
    save_chapters (validate_and_process_chapters cs d minLen) ≠ [] ∧
    ((∀ x ∈ cs, 0 ≤ x.start_time) →
      ∀ r ∈ save_chapters (validate_and_process_chapters cs d minLen),
        0 ≤ r.start_time) := by
  refine ⟨validate_sorted cs d minLen hm, save_chapters_sorted _,
    save_chapters_orders _, ?_, ?_, ?_⟩
  · rw [save_chapters_length]
    exact validate_length cs d minLen
  · intro h
    have hlen := congrArg List.length h
    rw [save_chapters_length, List.length_nil] at hlen
    exact validate_ne_nil cs d minLen hd (List.length_eq_zero.mp hlen)
  · intro hnn r hr
    have hq : r.start_time ∈
        (validate_and_process_chapters cs d minLen).map Cand.start_time :=
      save_chapters_start_mem _ _ (List.mem_map_of_mem _ hr)
    rcases List.mem_map.mp hq with ⟨y, hy, hyq⟩
    rw [← hyq]
    exact validate_nonneg cs d minLen hm hnn y hy

/-- Witness for the amended C3 at the single candidate (0,"A",0.9), duration
100, min_chapter_length 30. -/
theorem validator_output_guarantees_witness :
    ((0 : ℚ) < 100 ∧ (0 : ℚ) ≤ 30 ∧
      (∀ x ∈ [(⟨0, "A", 0.9⟩ : Cand)], 0 ≤ x.start_time)) ∧
    (List.Sorted candLe (validate_and_process_chapters
        [(⟨0, "A", 0.9⟩ : Cand)] 100 30) ∧
      List.Sorted rowLe (save_chapters (validate_and_process_chapters
        [(⟨0, "A", 0.9⟩ : Cand)] 100 30)) ∧
      ((save_chapters (validate_and_process_chapters
          [(⟨0, "A", 0.9⟩ : Cand)] 100 30)).map ChapterRow.order =
        List.range' 1 (save_chapters (validate_and_process_chapters
          [(⟨0, "A", 0.9⟩ : Cand)] 100 30)).length) ∧
      (save_chapters (validate_and_process_chapters
          [(⟨0, "A", 0.9⟩ : Cand)] 100 30)).length ≤ 15 ∧
      save_chapters (validate_and_process_chapters
          [(⟨0, "A", 0.9⟩ : Cand)] 100 30) ≠ [] ∧
      (∀ r ∈ save_chapters (validate_and_process_chapters
          [(⟨0, "A", 0.9⟩ : Cand)] 100 30), 0 ≤ r.start_time)) :=
  ⟨⟨by norm_num, by norm_num, by decide⟩,
   have h := validator_output_guarantees [(⟨0, "A", 0.9⟩ : Cand)] 100 30
     (by norm_num) (by norm_num)
   ⟨h.1, h.2.1, h.2.2.1, h.2.2.2.1, h.2.2.2.2.1, h.2.2.2.2.2 (by decide)⟩⟩

/-- C1, observed divergence: `start_processing` never reaches its
check-or-create single-flight logic.  For every state in which the video
exists and every behaviour of the hypothetical lookup, the class-attribute
access on the missing `get_active_job_for_video` raises `AttributeError`
(logged and re-raised by the handler), so no job record is returned, none is
created, and no task is submitted — in particular a second call for an
already-processing video does not return the existing job. -/
theorem start_processing_attribute_error (st : PipeState) (video_id : String)
    (newJobId : String) (lookupActive : PipeState → String → Option Job)
    (v : VideoRec) (hv : findVideo st video_id = some v) :
    start_processing st video_id newJobId lookupActive =
      Except.error (PyErr.attributeError "get_active_job_for_video") ∧
    "get_active_job_for_video" ∉ processingJobClassMethods := by
  constructor
  · unfold start_processing
    rw [hv]
    rfl
  · decide

/-- Witness for C1 on a state holding video "vid-1" with the non-terminal job
"job-1". -/
theorem start_processing_attribute_error_witness :
    findVideo pipeSt "vid-1" = some videoV ∧
    (start_processing pipeSt "vid-1" "job-2" (fun _ _ => some jobT) =
        Except.error (PyErr.attributeError "get_active_job_for_video") ∧
      "get_active_job_for_video" ∉ processingJobClassMethods) :=
  ⟨rfl, start_processing_attribute_error pipeSt "vid-1" "job-2"
    (fun _ _ => some jobT) videoV rfl⟩

/-- The stage value string determines the ERROR stage. -/
theorem stageValue_eq_error_iff (s : ProcessingStage) :
    stageValue s = "error" ↔ s = ProcessingStage.ERROR := by
  cases s <;> simp [stageValue]

/-- Replacing the row with a given id and finding by that id returns the
replacement, provided some row with the id was present. -/
theorem find_map_replace (jid : String) (j : Job) (hid : j.id = jid) :
    ∀ l : List Job, (l.find? (fun x => x.id = jid)).isSome →
      (l.map (fun x => if x.id = j.id then j else x)).find?
        (fun x => x.id = jid) = some j := by
  intro l
  induction l with
  | nil => simp [List.find?]
  | cons a t ih =>
      intro hsome
      by_cases ha : a.id = jid
      · simp only [List.map]
        rw [if_pos (by rw [hid]; exact ha)]
        exact List.find?_cons_of_pos _ (by simp [hid])
      · simp only [List.map]
        rw [if_neg (by rw [hid]; exact ha)]
        rw [List.find?_cons_of_neg _ (by simp [ha])]
        apply ih
        rw [List.find?_cons_of_neg _ (by simp [ha])] at hsome
        exact hsome

/-- `saveJob` then `findJob` by the same id returns the saved row. -/
theorem findJob_saveJob (st : PipeState) (jid : String) (x j : Job)
    (hfind : findJob st jid = some x) (hid : j.id = jid) :
    findJob (saveJob st j) jid = some j := by
  unfold findJob saveJob
  dsimp only
  apply find_map_replace jid j hid
  unfold findJob at hfind
  rw [hfind]
  rfl

/-- A found job carries the id it was looked up by. -/
theorem findJob_id (st : PipeState) (jid : String) (j : Job)
    (h : findJob st jid = some j) : j.id = jid := by
  unfold findJob at h
  have := List.find?_some h
  exact of_decide_eq_true this

/-- C9: `restart_job` on an existing job not in ERROR raises ValueError with
no state mutated; on an ERROR job it succeeds, and in the resulting state the
job has progress 0, cleared error message/details and end time, start time
now, stage UPLOADING, the stage progress of every non-terminal stage reset to
0, and the handle of the freshly submitted task stored on it. -/
theorem restart_job_spec (now : Nat) (st : PipeState) (job_id : String)
    (job : Job) (hj : findJob st job_id = some job) :
    (job.status ≠ ProcessingStage.ERROR →
      restart_job now st job_id =
        Except.error (PyErr.valueError "Can only restart failed jobs")) ∧
    (job.status = ProcessingStage.ERROR →
      ∃ st', restart_job now st job_id =
          Except.ok (st',
            { job_id := job_id, task_id := st.nextTaskId,
              status := "restarted" }) ∧
        findJob st' job_id =
          some { resetJob now job with task_id := some st.nextTaskId } ∧
        (∀ s : ProcessingStage,
          s ≠ ProcessingStage.COMPLETE → s ≠ ProcessingStage.ERROR →
          initStageProgress.lookup (stageValue s) = some 0)) := by
  have hid := findJob_id st job_id job hj
  constructor
  · intro hne
    unfold restart_job
    rw [hj]
    dsimp only
    rw [if_pos (fun hcontra =>
      hne ((stageValue_eq_error_iff job.status).mp hcontra))]
  · intro herr
    unfold restart_job
    rw [hj]
    dsimp only
    rw [if_neg (by
      rw [herr]
      simp [stageValue])]
    refine ⟨_, rfl, ?_, ?_⟩
    · have h1 : findJob (saveJob st (resetJob now job)) job_id =
          some (resetJob now job) :=
        findJob_saveJob st job_id job (resetJob now job) hj hid
      exact findJob_saveJob _ job_id _ _ h1 hid
    · intro s h1 h2
      cases s <;> first
        | rfl
        | exact absurd rfl h1
        | exact absurd rfl h2

/-- Witness for C9: restarting the failed job "job-9" and attempting to
restart the in-progress job "job-1". -/
theorem restart_job_spec_witness :
    (findJob pipeStE "job-9" = some jobE ∧
      jobE.status = ProcessingStage.ERROR ∧
      (∃ st', restart_job 60 pipeStE "job-9" =
          Except.ok (st',
            { job_id := "job-9", task_id := pipeStE.nextTaskId,
              status := "restarted" }) ∧
        findJob st' "job-9" =
          some { resetJob 60 jobE with task_id := some pipeStE.nextTaskId } ∧
        (∀ s : ProcessingStage,
          s ≠ ProcessingStage.COMPLETE → s ≠ ProcessingStage.ERROR →
          initStageProgress.lookup (stageValue s) = some 0))) ∧
    (findJob pipeSt "job-1" = some jobT ∧
      jobT.status ≠ ProcessingStage.ERROR ∧
      restart_job 60 pipeSt "job-1" =
        Except.error (PyErr.valueError "Can only restart failed jobs")) :=
  ⟨⟨rfl, rfl, (restart_job_spec 60 pipeStE "job-9" jobE rfl).2 rfl⟩,
   ⟨rfl, by decide, (restart_job_spec 60 pipeSt "job-1" jobT rfl).1 (by decide)⟩⟩

/-- A string-keyed lookup succeeds exactly when the key occurs among the
pairs' first components. -/
theorem lookup_isSome_iff {α : Type} (n : String) :
    ∀ ps : List (String × α),
      (ps.lookup n).isSome ↔ n ∈ ps.map Prod.fst := by
  intro ps
  induction ps with
  | nil => simp [List.lookup]
  | cons p t ih =>
      rcases p with ⟨k, v⟩
      by_cases hk : n = k
      · subst hk
        simp [List.lookup]
      · have hbeq : (n == k) = false := beq_eq_false_iff_ne.mpr hk
        simp only [List.lookup, hbeq, List.map, List.mem_cons]
        rw [ih]
        constructor
        · exact fun h => Or.inr h
        · rintro (h | h)
          · exact absurd h hk
          · exact h

/-- C10: `ProcessingStage` has exactly the eight members UPLOADING,
EXTRACTING_AUDIO, GENERATING_TRANSCRIPT, ANALYZING_CONTENT,
GENERATING_CHAPTERS, FINALIZING, COMPLETE and ERROR; `PROCESSING` is not
among them, so the attribute access on line 325 raises for every execution on
an existing job: the task body never reaches the processing steps and
control always passes to the task's error handler. -/
theorem process_video_task_never_processes (now : Nat) (st : PipeState)
    (video_id job_id : String)
    (processVideo : PipeState → Except String (PipeState × Nat)) (job : Job)
    (hj : findJob st job_id = some job) :
    stageAttr "PROCESSING" = none ∧
    (∀ n, (stageAttr n).isSome ↔ n ∈ processingStageMembers.map Prod.fst) ∧
    processingStageMembers.map Prod.fst =
      ["UPLOADING", "EXTRACTING_AUDIO", "GENERATING_TRANSCRIPT",
       "ANALYZING_CONTENT", "GENERATING_CHAPTERS", "FINALIZING",
       "COMPLETE", "ERROR"] ∧
    "process_video" ∉
      (process_video_task now st video_id job_id processVideo).steps ∧
    "error_handler" ∈
      (process_video_task now st video_id job_id processVideo).steps := by
  refine ⟨rfl, fun n => lookup_isSome_iff n processingStageMembers, rfl,
    ?_, ?_⟩ <;>
    · have hps : stageAttr "PROCESSING" = none := rfl
      unfold process_video_task
      rw [hj, hps]
      dsimp only
      unfold task_error_handler
      dsimp only
      split_ifs <;> simp

/-- Witness for C10 on the state holding job "job-1", with an arbitrary
processing oracle. -/
theorem process_video_task_never_processes_witness :
    findJob pipeSt "job-1" = some jobT ∧
    ("process_video" ∉
      (process_video_task 3 pipeSt "vid-1" "job-1"
        (fun s => Except.ok (s, 4))).steps ∧
     "error_handler" ∈
      (process_video_task 3 pipeSt "vid-1" "job-1"
        (fun s => Except.ok (s, 4))).steps) :=
  ⟨rfl,
   (process_video_task_never_processes 3 pipeSt "vid-1" "job-1"
      (fun s => Except.ok (s, 4)) jobT rfl).2.2.2⟩
